import Mathlib

/-!
Shallow embedding of the core of the `support-ai` repository:

* `lib/model_manager.py` — the backend registry (`ModelManager`) with its
  four factory variants, lazy once-only handle construction and the
  process-wide singleton `__new__`;
* `src/support_ai/lib/model_manager/openai_factory.py` and
  `llamacpp_factory.py` — the restructured factory variants;
* `lib/memory.py` — the per-session conversational memory manager;
* the time-bounded memoization cache used by
  `src/support_ai/lib/datasources/kb.py` (its implementation lives in
  `utils/lru.py`, outside the sources at hand, so it is modelled from the
  specification).

Python dictionaries are embedded as association lists over `String` keys,
mutation as explicit state passing, exceptions as `Except` results, and
the opaque, expensive model handles as `Nat` identifiers allocated from a
counter so that reference identity and construction counts are observable.
-/

namespace SupportAI

/-- Dictionary lookup on an association list, mirroring Python `d[k]` /
`k in d` on a `dict` with string keys. -/
def lookupKey {α : Type} : List (String × α) → String → Option α
  | [], _ => none
  | (k, v) :: rest, key => if k = key then some v else lookupKey rest key

/-- In-place update of the value stored under `key`, mirroring Python
`d[k] = f(d[k])` for a key already present. Keys other than `key` are
untouched. -/
def updateKey {α : Type} (ms : List (String × α)) (key : String) (f : α → α) :
    List (String × α) :=
  ms.map fun p => if p.1 = key then (p.1, f p.2) else p

/-- Errors raised by the embedded Python code: `KeyError` for a missing
dictionary key, `ValueError` for the explicit `raise ValueError(...)`
statements. -/
inductive PyError : Type
  | keyError (key : String)
  | valueError (msg : String)
deriving DecidableEq, Repr

/-- Configuration dictionary for one backend (one element of the
`llms:` list). `none` in a field means the key is absent from the dict;
`some ""` means the key is present with an empty (falsy) value. -/
structure LlmConfig where
  name : Option String
  typ : Option String
  model : Option String
  api_key : Option String
deriving DecidableEq, Repr

/-- The `type:` strings recognised by `get_model`'s factory table. -/
def CONFIG_HUGGINGFACE_PIPELINE : String := "huggingface-pipeline"

def CONFIG_LLAMACPP : String := "llamacpp"

def CONFIG_OLLAMA : String := "ollama"

def CONFIG_OPENAI : String := "openai"

/-- `HuggingFaceFactory.__init__` (lib/model_manager.py): reads
`llm_config[CONFIG_MODEL]` (KeyError if absent) and raises ValueError if
the value is falsy. -/
def HuggingFaceFactory.init (cfg : LlmConfig) : Except PyError String :=
  match cfg.model with
  | none => Except.error (PyError.keyError "model")
  | some m =>
    if m = "" then Except.error (PyError.valueError "Missing model in llm config")
    else Except.ok m

/-- `LlamaCppFactory.__init__` (lib/model_manager.py). -/
def LlamaCppFactory.init (cfg : LlmConfig) : Except PyError String :=
  match cfg.model with
  | none => Except.error (PyError.keyError "model")
  | some m =>
    if m = "" then Except.error (PyError.valueError "Missing model in llm config")
    else Except.ok m

/-- `OllamaFactory.__init__` (lib/model_manager.py). -/
def OllamaFactory.init (cfg : LlmConfig) : Except PyError String :=
  match cfg.model with
  | none => Except.error (PyError.keyError "model")
  | some m =>
    if m = "" then Except.error (PyError.valueError "Missing model in llm config")
    else Except.ok m

/-- `OpenAIFactory.__init__` (lib/model_manager.py, lines 74-78): reads
`self.model = llm_config[CONFIG_MODEL]` and
`self.api_key = llm_config[CONFIG_LLM_OPENAI_API_KEY]`, then checks ONLY
`if not self.api_key` — an empty model value is accepted. -/
def OpenAIFactory.init (cfg : LlmConfig) : Except PyError (String × String) :=
  match cfg.model with
  | none => Except.error (PyError.keyError "model")
  | some m =>
    match cfg.api_key with
    | none => Except.error (PyError.keyError "openai_api_key")
    | some k =>
      if k = "" then Except.error (PyError.valueError "Missing api_key in llm config")
      else Except.ok (m, k)

namespace support_ai

/-- `OpenAIFactory.__init__` in the restructured tree
(src/support_ai/lib/model_manager/openai_factory.py): validates the model
identifier first, then the api key. -/
def OpenAIFactory.init (cfg : LlmConfig) : Except PyError (String × String) :=
  match cfg.model with
  | none => Except.error (PyError.keyError "model")
  | some m =>
    if m = "" then Except.error (PyError.valueError "Missing model in llm config")
    else
      match cfg.api_key with
      | none => Except.error (PyError.keyError "openai_api_key")
      | some k =>
        if k = "" then Except.error (PyError.valueError "Missing openai_api_key in llm config")
        else Except.ok (m, k)

/-- `LlamaCppFactory.__init__` in the restructured tree
(src/support_ai/lib/model_manager/llamacpp_factory.py). -/
def LlamaCppFactory.init (cfg : LlmConfig) : Except PyError String :=
  match cfg.model with
  | none => Except.error (PyError.keyError "model")
  | some m =>
    if m = "" then Except.error (PyError.valueError "Missing model in llm config")
    else Except.ok m

end support_ai

/-- The module-level `get_model(llm_config)` dispatcher
(lib/model_manager.py, lines 89-100): checks the `type` key, looks the
type up in the factory table and constructs the matching factory. The
successful result is abstracted to `Unit`: the factory's `create_llm` /
`create_embeddings` calls are pure collaborator constructors. -/
def getFactory (cfg : LlmConfig) : Except PyError Unit :=
  match cfg.typ with
  | none => Except.error (PyError.valueError "The llm config does not contain type")
  | some t =>
    if t = CONFIG_HUGGINGFACE_PIPELINE then (HuggingFaceFactory.init cfg).map fun _ => ()
    else if t = CONFIG_LLAMACPP then (LlamaCppFactory.init cfg).map fun _ => ()
    else if t = CONFIG_OLLAMA then (OllamaFactory.init cfg).map fun _ => ()
    else if t = CONFIG_OPENAI then (OpenAIFactory.init cfg).map fun _ => ()
    else Except.error (PyError.valueError ("Unknown llm type: " ++ t))

/-- One value of `ModelManager.__models`: the stored descriptor plus the
two lazily built handles (`LLM_INST`, `EMBEDDINGS_INST`), both `None`
until first demand. Handles are `Nat` identifiers so that reference
identity is decidable. -/
structure BackendEntry where
  llm_config : LlmConfig
  llm_inst : Option Nat
  embeddings_inst : Option Nat
deriving DecidableEq, Repr

/-- The manager's mutable state: the `__models` dict (insertion ordered),
a fresh-handle counter, and an instrumentation log recording every
collaborator constructor call as `(backend name, is-embeddings)`. -/
structure ManagerState where
  models : List (String × BackendEntry)
  nextHandle : Nat
  buildLog : List (String × Bool)
deriving DecidableEq, Repr

/-- The top-level config dict handed to `ModelManager.__new__`:
`none` means the `llms` key is absent. -/
structure ManagerConfig where
  llms : Option (List LlmConfig)
deriving DecidableEq, Repr

/-- The request dict handed to `ModelManager.get_model`: the optional
`llm:` and `embeddings:` backend names. -/
structure ModelRequest where
  llm : Option String
  embeddings : Option String
deriving DecidableEq, Repr

/-- The `Model` dataclass returned by `ModelManager.get_model`. -/
structure Model where
  llm : Option Nat
  embeddings : Option Nat
deriving DecidableEq, Repr

/-- The descriptor-validation loop of `ModelManager.__new__`
(lib/model_manager.py, lines 115-124): for each llm dict, fail on a
missing `name`, fail on a duplicate, otherwise insert an entry with both
handle slots `None`. -/
def buildEntries : List LlmConfig → List (String × BackendEntry) →
    Except PyError (List (String × BackendEntry))
  | [], acc => Except.ok acc
  | llm :: rest, acc =>
    match llm.name with
    | none => Except.error (PyError.valueError "The llm does not contain name")
    | some nm =>
      if (lookupKey acc nm).isSome then
        Except.error (PyError.valueError ("Duplicated llm name " ++ nm))
      else
        buildEntries rest
          (acc ++ [(nm, { llm_config := llm, llm_inst := none, embeddings_inst := none })])

/-- `ModelManager.__new__` (lib/model_manager.py, lines 109-126): if the
class-level `__instance` is already set it is returned unchanged with no
validation at all; otherwise the config is validated, the `__models` dict
is built and the new instance is published. -/
def ModelManager.new (inst : Option ManagerState) (config : ManagerConfig) :
    Except PyError ManagerState :=
  match inst with
  | some s => Except.ok s
  | none =>
    match config.llms with
    | none => Except.error (PyError.valueError "The config does not contain llms")
    | some llms =>
      (buildEntries llms []).map fun ms =>
        { models := ms, nextHandle := 0, buildLog := [] }

/-- The `CONFIG_LLM` branch of `ModelManager.get_model` (lines 130-137):
fail if the requested name is unregistered; build and cache the llm handle
if the slot is still `None`; finally read the cached handle. The state is
returned even on failure, matching Python mutation-then-raise. -/
def resolveLlm (s : ManagerState) (req : ModelRequest) :
    Except PyError (Option Nat) × ManagerState :=
  match req.llm with
  | none => (Except.ok none, s)
  | some nm =>
    match lookupKey s.models nm with
    | none =>
      (Except.error (PyError.valueError ("The llms does not contain a llm named " ++ nm)), s)
    | some entry =>
      match entry.llm_inst with
      | some h => (Except.ok (some h), s)
      | none =>
        match getFactory entry.llm_config with
        | Except.error e => (Except.error e, s)
        | Except.ok _ =>
          let h := s.nextHandle
          (Except.ok (some h),
            { models := updateKey s.models nm fun e => { e with llm_inst := some h },
              nextHandle := s.nextHandle + 1,
              buildLog := s.buildLog ++ [(nm, false)] })

/-- The `CONFIG_EMBEDDINGS` branch of `ModelManager.get_model`
(lines 139-146), run after the llm branch on the possibly updated state. -/
def resolveEmb (s : ManagerState) (req : ModelRequest) :
    Except PyError (Option Nat) × ManagerState :=
  match req.embeddings with
  | none => (Except.ok none, s)
  | some nm =>
    match lookupKey s.models nm with
    | none =>
      (Except.error (PyError.valueError ("The llms does not contain a llm named " ++ nm)), s)
    | some entry =>
      match entry.embeddings_inst with
      | some h => (Except.ok (some h), s)
      | none =>
        match getFactory entry.llm_config with
        | Except.error e => (Except.error e, s)
        | Except.ok _ =>
          let h := s.nextHandle
          (Except.ok (some h),
            { models := updateKey s.models nm fun e => { e with embeddings_inst := some h },
              nextHandle := s.nextHandle + 1,
              buildLog := s.buildLog ++ [(nm, true)] })

/-- `ModelManager.get_model` (lib/model_manager.py, lines 128-147): the
llm branch first, then the embeddings branch. A raise in the embeddings
branch leaves the llm branch's mutations in place. -/
def ModelManager.get_model (s : ManagerState) (req : ModelRequest) :
    Except PyError Model × ManagerState :=
  match resolveLlm s req with
  | (Except.error e, s1) => (Except.error e, s1)
  | (Except.ok llmh, s1) =>
    match resolveEmb s1 req with
    | (Except.error e, s2) => (Except.error e, s2)
    | (Except.ok embh, s2) => (Except.ok { llm := llmh, embeddings := embh }, s2)

/-- `n` sequential `get_model` calls with the same request, returning the
last call's result and the final state. -/
def resolveN : Nat → ManagerState → ModelRequest → Except PyError Model × ManagerState
  | 0, s, _ => (Except.error (PyError.valueError "no resolution"), s)
  | 1, s, req => ModelManager.get_model s req
  | n + 2, s, req =>
    resolveN (n + 1) (ModelManager.get_model s req).2 req

/-- Number of `(nm, b)` events in a constructor log. -/
def logCount (log : List (String × Bool)) (nm : String) (b : Bool) : Nat :=
  (log.filter fun e => e.1 = nm ∧ e.2 = b).length

/-- Number of language-model constructor calls recorded for backend `nm`. -/
def llmBuildCount (s : ManagerState) (nm : String) : Nat :=
  logCount s.buildLog nm false

/-- Number of embeddings constructor calls recorded for backend `nm`. -/
def embBuildCount (s : ManagerState) (nm : String) : Nat :=
  logCount s.buildLog nm true

/-- Removal of a key from an association list, mirroring Python
`del d[k]` (a no-op here when the key is absent, as used under an
`if k in d` guard). -/
def removeKey {α : Type} (ms : List (String × α)) (key : String) :
    List (String × α) :=
  ms.filter fun p => p.1 != key

/-- Insert-or-replace of a binding, mirroring Python `d[k] = v`. -/
def setKey {α : Type} (ms : List (String × α)) (key : String) (v : α) :
    List (String × α) :=
  if (lookupKey ms key).isSome then updateKey ms key fun _ => v
  else ms ++ [(key, v)]

/-- One message of the structured conversation built by
`Memory.integrate`. -/
inductive ChatMsg : Type
  | system (text : String)
  | human (text : String)
  | ai (text : String)
deriving DecidableEq, Repr

/-- History loading (`memory.load_memory_variables(...)['history']`):
each persisted `(input, output)` turn contributes a human message and an
ai message, in order. -/
def loadHistory (turns : List (String × String)) : List ChatMsg :=
  (turns.map fun t => [ChatMsg.human t.1, ChatMsg.ai t.2]).flatten

/-- One value of `Memory.session_memories`: the
`ConversationSummaryBufferMemory` object created for a session. `objId`
makes Python object identity decidable; `session` is the session id the
underlying `MongoDBChatMessageHistory` was bound to. -/
structure SessionMemoryObj where
  objId : Nat
  session : String
deriving DecidableEq, Repr

/-- State of a `Memory` manager (lib/memory.py) together with the
external MongoDB history store it drives: `persisted` maps a session id
to its list of `(input, output)` turns, `mongoCtorCount` counts every
`MongoDBChatMessageHistory` construction. -/
structure MemoryState where
  db_connection : String
  session_memories : List (String × SessionMemoryObj)
  persisted : List (String × List (String × String))
  nextObjId : Nat
  mongoCtorCount : Nat
deriving DecidableEq, Repr

/-- Config dict handed to `Memory.__init__`; `none` means the
`db_connection` key is absent. -/
structure MemoryConfig where
  db_connection : Option String
deriving DecidableEq, Repr

/-- `Memory.__init__` (lib/memory.py, lines 10-16): fail when the config
lacks `db_connection`, otherwise start with empty maps. The external
store is taken as given (`persisted0`): the manager does not own it. -/
def Memory.init (config : MemoryConfig)
    (persisted0 : List (String × List (String × String))) :
    Except PyError MemoryState :=
  match config.db_connection with
  | none => Except.error (PyError.valueError "The config does not contain db_connection")
  | some conn =>
    Except.ok { db_connection := conn, session_memories := [], persisted := persisted0,
                nextObjId := 0, mongoCtorCount := 0 }

/-- `Memory.__get_session_memory` (lib/memory.py, lines 18-29): under the
mutex, return the cached object if present; otherwise construct a
`MongoDBChatMessageHistory` (counted) and a `ConversationSummaryBufferMemory`
around it, cache it and return it. -/
def Memory.get_session_memory (s : MemoryState) (session : String) :
    SessionMemoryObj × MemoryState :=
  match lookupKey s.session_memories session with
  | some mem => (mem, s)
  | none =>
    let mem : SessionMemoryObj := { objId := s.nextObjId, session := session }
    (mem,
      { s with session_memories := s.session_memories ++ [(session, mem)],
               nextObjId := s.nextObjId + 1,
               mongoCtorCount := s.mongoCtorCount + 1 })

/-- Persisted turns of a session (empty when the store has no entry). -/
def persistedOf (s : MemoryState) (session : String) : List (String × String) :=
  (lookupKey s.persisted session).getD []

/-- `Memory.integrate` (lib/memory.py, lines 31-48): obtain the session
memory, build the prompt `[system, history, human(context, query)]`, run
the chain through the language model `llm`, save the `(query, response)`
pair through the session memory, return the response. -/
def Memory.integrate (llm : List ChatMsg → String) (s : MemoryState)
    (session query context : String) : String × MemoryState :=
  let pair := Memory.get_session_memory s session
  let mem := pair.1
  let s1 := pair.2
  let conversation :=
    ChatMsg.system "You are a helpful chatbot" ::
      loadHistory (persistedOf s1 mem.session) ++
      [ChatMsg.human ("Based on the context: " ++ context ++ ", " ++ query)]
  let response := llm conversation
  (response,
    { s1 with persisted :=
        setKey s1.persisted mem.session (persistedOf s1 mem.session ++ [(query, response)]) })

/-- `Memory.clear` (lib/memory.py, lines 50-58): under the mutex,
construct a fresh `MongoDBChatMessageHistory` (counted) for the session,
clear its persisted messages, and drop the cached in-process object when
present. -/
def Memory.clear (s : MemoryState) (session : String) : MemoryState :=
  { s with persisted := removeKey s.persisted session,
           session_memories := removeKey s.session_memories session,
           mongoCtorCount := s.mongoCtorCount + 1 }

/-- Well-formedness of a memory state: every cached session object is
stored under the session id it was built for. `Memory.init` establishes
this and every operation preserves it. -/
def MemoryWF (s : MemoryState) : Prop :=
  ∀ k obj, lookupKey s.session_memories k = some obj → obj.session = k

/-- Cache entry of the time-bounded memoization layer. -/
structure CacheEntry (α : Type) where
  value : α
  created_at : Nat
deriving DecidableEq, Repr

/-- Time-bounded LRU cache; `entries` is kept least-recently-stored
first. -/
structure TimeBoundedCache (α : Type) where
  ttl : Nat
  max_entries : Nat
  entries : List (String × CacheEntry α)
deriving DecidableEq, Repr

/-- Modelled from the spec: the `timed_lru_cache` decorator used by
`KnowledgeBaseSource.__get_summary` lives in `utils/lru.py`, which is not
among the sources; this follows the specified contract: if a live
(non-expired) entry exists for `key`, return it without invoking
`compute`; otherwise invoke `compute`, store the result with the current
timestamp, evict the least-recently-used entry if the map exceeds
`max_entries`, and return the fresh value. The returned `Bool` records
whether `compute` was invoked. -/
def TimeBoundedCache.get_or_compute {α : Type} (c : TimeBoundedCache α) (key : String)
    (compute : Unit → α) (now : Nat) : α × TimeBoundedCache α × Bool :=
  match lookupKey c.entries key with
  | some e =>
    if now - e.created_at < c.ttl then (e.value, c, false)
    else
      let v := compute ()
      (v,
        { c with entries :=
            removeKey c.entries key ++ [(key, { value := v, created_at := now })] },
        true)
  | none =>
    let v := compute ()
    let inserted := c.entries ++ [(key, { value := v, created_at := now })]
    (v,
      { c with entries := if c.max_entries < inserted.length then inserted.tail else inserted },
      true)

/-- Concrete descriptor used by the concrete registry runs below: a
local-native-binary (llamacpp) backend named `a`. -/
def llmA : LlmConfig :=
  { name := some "a", typ := some CONFIG_LLAMACPP, model := some "m", api_key := none }

/-- Concrete one-backend registry config. -/
def cfgW : ManagerConfig := { llms := some [llmA] }

/-- The entry stored for backend `a` right after building from `cfgW`. -/
def entA : BackendEntry :=
  { llm_config := llmA, llm_inst := none, embeddings_inst := none }

/-- The registry state freshly built from `cfgW`. -/
def stW0 : ManagerState :=
  { models := [("a", entA)], nextHandle := 0, buildLog := [] }

/-- Request for both the llm and the embeddings of backend `a`. -/
def rqW : ModelRequest := { llm := some "a", embeddings := some "a" }

/-- Registry state after the first resolution of `rqW` from `stW0`. -/
def stW1 : ManagerState :=
  { models := [("a", { llm_config := llmA, llm_inst := some 0, embeddings_inst := some 1 })],
    nextHandle := 2, buildLog := [("a", false), ("a", true)] }

/-- Bundle returned by the first resolution of `rqW` from `stW0`. -/
def mW : Model := { llm := some 0, embeddings := some 1 }

/-- Request naming the registered backend `a` as llm and the
unregistered name `b` as embeddings. -/
def rqPartial : ModelRequest := { llm := some "a", embeddings := some "b" }

/-- Failing input for the legacy remote-api factory: the model key is
present but empty while the api key is set. -/
def cfgEmptyModel : LlmConfig :=
  { name := none, typ := some CONFIG_OPENAI, model := some "", api_key := some "sk-test" }

/-- The same empty model identifier, without an api key, as handed to the
three local factory variants. -/
def cfgEmptyModelNoKey : LlmConfig :=
  { name := none, typ := none, model := some "", api_key := none }

/-- Second backend descriptor used by the build-validation witness. -/
def llmB : LlmConfig :=
  { name := some "b", typ := some CONFIG_OPENAI, model := some "m2", api_key := some "k" }

/-- A freshly initialised memory manager over an empty history store. -/
def memW0 : MemoryState :=
  { db_connection := "mongodb://db", session_memories := [], persisted := [],
    nextObjId := 0, mongoCtorCount := 0 }

/-- A memory manager with one live session `s1` holding one persisted
turn. -/
def memW1 : MemoryState :=
  { db_connection := "mongodb://db",
    session_memories := [("s1", { objId := 0, session := "s1" })],
    persisted := [("s1", [("q", "r")])],
    nextObjId := 1, mongoCtorCount := 1 }

/-- A one-entry cache with `ttl = 1` whose entry was stored at time 0. -/
def cacheW : TimeBoundedCache String :=
  { ttl := 1, max_entries := 10, entries := [("k", { value := "v", created_at := 0 })] }

/-! Association-list lemmas. -/

theorem updateKey_cons {α : Type} (k : String) (v : α) (rest : List (String × α))
    (key : String) (f : α → α) :
    updateKey ((k, v) :: rest) key f =
      (if k = key then (k, f v) else (k, v)) :: updateKey rest key f := rfl

theorem lookupKey_updateKey_self {α : Type} (ms : List (String × α)) (key : String)
    (f : α → α) : lookupKey (updateKey ms key f) key = (lookupKey ms key).map f := by
  induction ms with
  | nil => rfl
  | cons p rest ih =>
    obtain ⟨k, v⟩ := p
    rw [updateKey_cons]
    by_cases hk : k = key
    · rw [if_pos hk]
      simp [lookupKey, hk]
    · rw [if_neg hk]
      simp only [lookupKey, if_neg hk]
      exact ih

theorem lookupKey_updateKey_other {α : Type} (ms : List (String × α)) (key other : String)
    (f : α → α) (hne : other ≠ key) :
    lookupKey (updateKey ms key f) other = lookupKey ms other := by
  induction ms with
  | nil => rfl
  | cons p rest ih =>
    obtain ⟨k, v⟩ := p
    rw [updateKey_cons]
    by_cases hk : k = key
    · rw [if_pos hk]
      subst hk
      simp only [lookupKey]
      rw [if_neg fun h => hne h.symm, if_neg fun h => hne h.symm]
      exact ih
    · rw [if_neg hk]
      simp only [lookupKey]
      by_cases hko : k = other
      · rw [if_pos hko, if_pos hko]
      · rw [if_neg hko, if_neg hko]
        exact ih

theorem lookupKey_append {α : Type} (ms ns : List (String × α)) (key : String) :
    lookupKey (ms ++ ns) key =
      (lookupKey ms key).elim (lookupKey ns key) some := by
  induction ms with
  | nil => simp [lookupKey]
  | cons p rest ih =>
    obtain ⟨k, v⟩ := p
    by_cases hk : k = key
    · simp [lookupKey, hk]
    · simpa [lookupKey, hk] using ih

theorem removeKey_cons {α : Type} (k : String) (v : α) (rest : List (String × α))
    (key : String) :
    removeKey ((k, v) :: rest) key =
      if k = key then removeKey rest key else (k, v) :: removeKey rest key := by
  simp only [removeKey, List.filter_cons]
  by_cases hk : k = key
  · simp [hk]
  · simp [hk]

theorem lookupKey_removeKey_self {α : Type} (ms : List (String × α)) (key : String) :
    lookupKey (removeKey ms key) key = none := by
  induction ms with
  | nil => rfl
  | cons p rest ih =>
    obtain ⟨k, v⟩ := p
    rw [removeKey_cons]
    by_cases hk : k = key
    · rw [if_pos hk]
      exact ih
    · rw [if_neg hk]
      simp only [lookupKey, if_neg hk]
      exact ih

theorem lookupKey_removeKey_other {α : Type} (ms : List (String × α)) (key other : String)
    (hne : other ≠ key) :
    lookupKey (removeKey ms key) other = lookupKey ms other := by
  induction ms with
  | nil => rfl
  | cons p rest ih =>
    obtain ⟨k, v⟩ := p
    rw [removeKey_cons]
    by_cases hk : k = key
    · rw [if_pos hk, ih]
      subst hk
      simp only [lookupKey]
      rw [if_neg fun h => hne h.symm]
    · rw [if_neg hk]
      simp only [lookupKey]
      by_cases hko : k = other
      · rw [if_pos hko, if_pos hko]
      · rw [if_neg hko, if_neg hko]
        exact ih

theorem removeKey_idem {α : Type} (ms : List (String × α)) (key : String) :
    removeKey (removeKey ms key) key = removeKey ms key := by
  induction ms with
  | nil => rfl
  | cons p rest ih =>
    obtain ⟨k, v⟩ := p
    rw [removeKey_cons]
    by_cases hk : k = key
    · rw [if_pos hk]
      exact ih
    · rw [if_neg hk, removeKey_cons, if_neg hk, ih]

theorem lookupKey_setKey_self {α : Type} (ms : List (String × α)) (key : String) (v : α) :
    lookupKey (setKey ms key v) key = some v := by
  unfold setKey
  by_cases h : (lookupKey ms key).isSome
  · rw [if_pos h, lookupKey_updateKey_self]
    obtain ⟨w, hw⟩ := Option.isSome_iff_exists.mp h
    rw [hw]
    rfl
  · rw [if_neg h, lookupKey_append]
    rw [Option.not_isSome_iff_eq_none.mp h]
    simp [lookupKey]

theorem lookupKey_setKey_other {α : Type} (ms : List (String × α)) (key other : String)
    (v : α) (hne : other ≠ key) :
    lookupKey (setKey ms key v) other = lookupKey ms other := by
  unfold setKey
  by_cases h : (lookupKey ms key).isSome
  · rw [if_pos h, lookupKey_updateKey_other _ _ _ _ hne]
  · rw [if_neg h, lookupKey_append]
    cases hm : lookupKey ms other with
    | none =>
      simp only [Option.elim]
      simp only [lookupKey]
      rw [if_neg fun hh => hne hh.symm]
    | some w => simp

theorem lookupKey_isSome_iff_mem {α : Type} (ms : List (String × α)) (key : String) :
    (lookupKey ms key).isSome = true ↔ key ∈ ms.map Prod.fst := by
  induction ms with
  | nil => simp [lookupKey]
  | cons p rest ih =>
    obtain ⟨k, v⟩ := p
    by_cases hk : k = key
    · simp [lookupKey, hk]
    · simp only [lookupKey, if_neg hk, List.map_cons, List.mem_cons]
      rw [ih]
      constructor
      · intro h
        exact Or.inr h
      · rintro (h | h)
        · exact absurd h.symm hk
        · exact h

/-! Constructor-log counting lemmas. -/

theorem logCount_nil (nm : String) (b : Bool) : logCount [] nm b = 0 := rfl

theorem logCount_append_hit (log : List (String × Bool)) (nm : String) (b : Bool) :
    logCount (log ++ [(nm, b)]) nm b = logCount log nm b + 1 := by
  simp [logCount, List.filter_append]

theorem logCount_append_miss (log : List (String × Bool)) (nm nm' : String) (b b' : Bool)
    (h : ¬(nm' = nm ∧ b' = b)) :
    logCount (log ++ [(nm', b')]) nm b = logCount log nm b := by
  simp [logCount, List.filter_append, h]

/-! Branch equations of `resolveLlm` and `resolveEmb`. -/

theorem resolveLlm_req_none (s : ManagerState) (req : ModelRequest)
    (h : req.llm = none) : resolveLlm s req = (Except.ok none, s) := by
  simp [resolveLlm, h]

theorem resolveLlm_unregistered (s : ManagerState) (req : ModelRequest) (nm : String)
    (hreq : req.llm = some nm) (hlook : lookupKey s.models nm = none) :
    resolveLlm s req =
      (Except.error (PyError.valueError ("The llms does not contain a llm named " ++ nm)),
        s) := by
  simp [resolveLlm, hreq, hlook]

theorem resolveLlm_cached (s : ManagerState) (req : ModelRequest) (nm : String)
    (e : BackendEntry) (hv : Nat) (hreq : req.llm = some nm)
    (hlook : lookupKey s.models nm = some e) (hinst : e.llm_inst = some hv) :
    resolveLlm s req = (Except.ok (some hv), s) := by
  simp [resolveLlm, hreq, hlook, hinst]

theorem resolveLlm_factory_error (s : ManagerState) (req : ModelRequest) (nm : String)
    (e : BackendEntry) (err : PyError) (hreq : req.llm = some nm)
    (hlook : lookupKey s.models nm = some e) (hinst : e.llm_inst = none)
    (hfac : getFactory e.llm_config = Except.error err) :
    resolveLlm s req = (Except.error err, s) := by
  simp [resolveLlm, hreq, hlook, hinst, hfac]

theorem resolveLlm_fresh (s : ManagerState) (req : ModelRequest) (nm : String)
    (e : BackendEntry) (hreq : req.llm = some nm)
    (hlook : lookupKey s.models nm = some e) (hinst : e.llm_inst = none)
    (hfac : getFactory e.llm_config = Except.ok ()) :
    resolveLlm s req =
      (Except.ok (some s.nextHandle),
        { models := updateKey s.models nm fun e0 => { e0 with llm_inst := some s.nextHandle },
          nextHandle := s.nextHandle + 1,
          buildLog := s.buildLog ++ [(nm, false)] }) := by
  simp [resolveLlm, hreq, hlook, hinst, hfac]

theorem resolveEmb_req_none (s : ManagerState) (req : ModelRequest)
    (h : req.embeddings = none) : resolveEmb s req = (Except.ok none, s) := by
  simp [resolveEmb, h]

theorem resolveEmb_unregistered (s : ManagerState) (req : ModelRequest) (nm : String)
    (hreq : req.embeddings = some nm) (hlook : lookupKey s.models nm = none) :
    resolveEmb s req =
      (Except.error (PyError.valueError ("The llms does not contain a llm named " ++ nm)),
        s) := by
  simp [resolveEmb, hreq, hlook]

theorem resolveEmb_cached (s : ManagerState) (req : ModelRequest) (nm : String)
    (e : BackendEntry) (hv : Nat) (hreq : req.embeddings = some nm)
    (hlook : lookupKey s.models nm = some e) (hinst : e.embeddings_inst = some hv) :
    resolveEmb s req = (Except.ok (some hv), s) := by
  simp [resolveEmb, hreq, hlook, hinst]

theorem resolveEmb_factory_error (s : ManagerState) (req : ModelRequest) (nm : String)
    (e : BackendEntry) (err : PyError) (hreq : req.embeddings = some nm)
    (hlook : lookupKey s.models nm = some e) (hinst : e.embeddings_inst = none)
    (hfac : getFactory e.llm_config = Except.error err) :
    resolveEmb s req = (Except.error err, s) := by
  simp [resolveEmb, hreq, hlook, hinst, hfac]

theorem resolveEmb_fresh (s : ManagerState) (req : ModelRequest) (nm : String)
    (e : BackendEntry) (hreq : req.embeddings = some nm)
    (hlook : lookupKey s.models nm = some e) (hinst : e.embeddings_inst = none)
    (hfac : getFactory e.llm_config = Except.ok ()) :
    resolveEmb s req =
      (Except.ok (some s.nextHandle),
        { models :=
            updateKey s.models nm fun e0 => { e0 with embeddings_inst := some s.nextHandle },
          nextHandle := s.nextHandle + 1,
          buildLog := s.buildLog ++ [(nm, true)] }) := by
  simp [resolveEmb, hreq, hlook, hinst, hfac]

/-! Case analysis on successful and failing branch outcomes. -/

theorem resolveLlm_ok_cases (s s' : ManagerState) (req : ModelRequest) (h : Option Nat)
    (hres : resolveLlm s req = (Except.ok h, s')) :
    (req.llm = none ∧ h = none ∧ s' = s) ∨
      ∃ nm e, req.llm = some nm ∧ lookupKey s.models nm = some e ∧
        ((∃ hv, e.llm_inst = some hv ∧ h = some hv ∧ s' = s) ∨
          (e.llm_inst = none ∧ getFactory e.llm_config = Except.ok () ∧
            h = some s.nextHandle ∧
            s'.models = updateKey s.models nm
              (fun e0 => { e0 with llm_inst := some s.nextHandle }) ∧
            s'.nextHandle = s.nextHandle + 1 ∧
            s'.buildLog = s.buildLog ++ [(nm, false)])) := by
  rcases hreq : req.llm with _ | nm
  · rw [resolveLlm_req_none s req hreq] at hres
    simp only [Prod.mk.injEq, Except.ok.injEq] at hres
    exact Or.inl ⟨rfl, hres.1.symm, hres.2.symm⟩
  · rcases hlook : lookupKey s.models nm with _ | e
    · rw [resolveLlm_unregistered s req nm hreq hlook] at hres
      simp at hres
    · rcases hinst : e.llm_inst with _ | hv
      · cases hfac : getFactory e.llm_config with
        | error err =>
          rw [resolveLlm_factory_error s req nm e err hreq hlook hinst hfac] at hres
          simp at hres
        | ok u =>
          cases u
          rw [resolveLlm_fresh s req nm e hreq hlook hinst hfac] at hres
          simp only [Prod.mk.injEq, Except.ok.injEq] at hres
          obtain ⟨h1, h2⟩ := hres
          subst h2
          exact Or.inr ⟨nm, e, rfl, hlook,
            Or.inr ⟨hinst, hfac, h1.symm, rfl, rfl, rfl⟩⟩
      · rw [resolveLlm_cached s req nm e hv hreq hlook hinst] at hres
        simp only [Prod.mk.injEq, Except.ok.injEq] at hres
        exact Or.inr ⟨nm, e, rfl, hlook, Or.inl ⟨hv, hinst, hres.1.symm, hres.2.symm⟩⟩

theorem resolveEmb_ok_cases (s s' : ManagerState) (req : ModelRequest) (h : Option Nat)
    (hres : resolveEmb s req = (Except.ok h, s')) :
    (req.embeddings = none ∧ h = none ∧ s' = s) ∨
      ∃ nm e, req.embeddings = some nm ∧ lookupKey s.models nm = some e ∧
        ((∃ hv, e.embeddings_inst = some hv ∧ h = some hv ∧ s' = s) ∨
          (e.embeddings_inst = none ∧ getFactory e.llm_config = Except.ok () ∧
            h = some s.nextHandle ∧
            s'.models = updateKey s.models nm
              (fun e0 => { e0 with embeddings_inst := some s.nextHandle }) ∧
            s'.nextHandle = s.nextHandle + 1 ∧
            s'.buildLog = s.buildLog ++ [(nm, true)])) := by
  rcases hreq : req.embeddings with _ | nm
  · rw [resolveEmb_req_none s req hreq] at hres
    simp only [Prod.mk.injEq, Except.ok.injEq] at hres
    exact Or.inl ⟨rfl, hres.1.symm, hres.2.symm⟩
  · rcases hlook : lookupKey s.models nm with _ | e
    · rw [resolveEmb_unregistered s req nm hreq hlook] at hres
      simp at hres
    · rcases hinst : e.embeddings_inst with _ | hv
      · cases hfac : getFactory e.llm_config with
        | error err =>
          rw [resolveEmb_factory_error s req nm e err hreq hlook hinst hfac] at hres
          simp at hres
        | ok u =>
          cases u
          rw [resolveEmb_fresh s req nm e hreq hlook hinst hfac] at hres
          simp only [Prod.mk.injEq, Except.ok.injEq] at hres
          obtain ⟨h1, h2⟩ := hres
          subst h2
          exact Or.inr ⟨nm, e, rfl, hlook,
            Or.inr ⟨hinst, hfac, h1.symm, rfl, rfl, rfl⟩⟩
      · rw [resolveEmb_cached s req nm e hv hreq hlook hinst] at hres
        simp only [Prod.mk.injEq, Except.ok.injEq] at hres
        exact Or.inr ⟨nm, e, rfl, hlook, Or.inl ⟨hv, hinst, hres.1.symm, hres.2.symm⟩⟩

theorem resolveLlm_error_state (s s' : ManagerState) (req : ModelRequest) (err : PyError)
    (hres : resolveLlm s req = (Except.error err, s')) : s' = s := by
  rcases hreq : req.llm with _ | nm
  · rw [resolveLlm_req_none s req hreq] at hres
    simp at hres
  · rcases hlook : lookupKey s.models nm with _ | e
    · rw [resolveLlm_unregistered s req nm hreq hlook] at hres
      simp only [Prod.mk.injEq] at hres
      exact hres.2.symm
    · rcases hinst : e.llm_inst with _ | hv
      · cases hfac : getFactory e.llm_config with
        | error err' =>
          rw [resolveLlm_factory_error s req nm e err' hreq hlook hinst hfac] at hres
          simp only [Prod.mk.injEq] at hres
          exact hres.2.symm
        | ok u =>
          cases u
          rw [resolveLlm_fresh s req nm e hreq hlook hinst hfac] at hres
          simp at hres
      · rw [resolveLlm_cached s req nm e hv hreq hlook hinst] at hres
        simp at hres

theorem resolveEmb_error_state (s s' : ManagerState) (req : ModelRequest) (err : PyError)
    (hres : resolveEmb s req = (Except.error err, s')) : s' = s := by
  rcases hreq : req.embeddings with _ | nm
  · rw [resolveEmb_req_none s req hreq] at hres
    simp at hres
  · rcases hlook : lookupKey s.models nm with _ | e
    · rw [resolveEmb_unregistered s req nm hreq hlook] at hres
      simp only [Prod.mk.injEq] at hres
      exact hres.2.symm
    · rcases hinst : e.embeddings_inst with _ | hv
      · cases hfac : getFactory e.llm_config with
        | error err' =>
          rw [resolveEmb_factory_error s req nm e err' hreq hlook hinst hfac] at hres
          simp only [Prod.mk.injEq] at hres
          exact hres.2.symm
        | ok u =>
          cases u
          rw [resolveEmb_fresh s req nm e hreq hlook hinst hfac] at hres
          simp at hres
      · rw [resolveEmb_cached s req nm e hv hreq hlook hinst] at hres
        simp at hres

theorem resolveLlm_ok_post (s s' : ManagerState) (req : ModelRequest) (h : Option Nat)
    (nm : String) (hres : resolveLlm s req = (Except.ok h, s'))
    (hreq : req.llm = some nm) :
    ∃ hv e, h = some hv ∧ lookupKey s'.models nm = some e ∧ e.llm_inst = some hv := by
  rcases resolveLlm_ok_cases s s' req h hres with ⟨hn, -, -⟩ | ⟨nm', e, hreq', hlook, hcase⟩
  · rw [hreq] at hn
    cases hn
  · rw [hreq] at hreq'
    obtain ⟨rfl⟩ := hreq'
    rcases hcase with ⟨hv, hinst, hh, hs⟩ | ⟨hinst, hfac, hh, hmod, -, -⟩
    · subst hs
      exact ⟨hv, e, hh, hlook, hinst⟩
    · refine ⟨s.nextHandle, { e with llm_inst := some s.nextHandle }, hh, ?_, rfl⟩
      rw [hmod, lookupKey_updateKey_self, hlook]
      rfl

theorem resolveEmb_ok_post (s s' : ManagerState) (req : ModelRequest) (h : Option Nat)
    (nm : String) (hres : resolveEmb s req = (Except.ok h, s'))
    (hreq : req.embeddings = some nm) :
    ∃ hv e, h = some hv ∧ lookupKey s'.models nm = some e ∧
      e.embeddings_inst = some hv := by
  rcases resolveEmb_ok_cases s s' req h hres with ⟨hn, -, -⟩ | ⟨nm', e, hreq', hlook, hcase⟩
  · rw [hreq] at hn
    cases hn
  · rw [hreq] at hreq'
    obtain ⟨rfl⟩ := hreq'
    rcases hcase with ⟨hv, hinst, hh, hs⟩ | ⟨hinst, hfac, hh, hmod, -, -⟩
    · subst hs
      exact ⟨hv, e, hh, hlook, hinst⟩
    · refine ⟨s.nextHandle, { e with embeddings_inst := some s.nextHandle }, hh, ?_, rfl⟩
      rw [hmod, lookupKey_updateKey_self, hlook]
      rfl

theorem resolveLlm_preserves_emb (s s' : ManagerState) (req : ModelRequest)
    (h : Option Nat) (hres : resolveLlm s req = (Except.ok h, s')) (nm0 : String) :
    (lookupKey s'.models nm0).map (fun e => (e.llm_config, e.embeddings_inst)) =
      (lookupKey s.models nm0).map (fun e => (e.llm_config, e.embeddings_inst)) := by
  rcases resolveLlm_ok_cases s s' req h hres with ⟨-, -, rfl⟩ | ⟨nm, e, -, hlook, hcase⟩
  · rfl
  · rcases hcase with ⟨hv, -, -, rfl⟩ | ⟨-, -, -, hmod, -, -⟩
    · rfl
    · rw [hmod]
      by_cases hnm : nm0 = nm
      · subst hnm
        rw [lookupKey_updateKey_self]
        cases lookupKey s.models nm0 <;> rfl
      · rw [lookupKey_updateKey_other _ _ _ _ hnm]

theorem resolveEmb_preserves_llm (s s' : ManagerState) (req : ModelRequest)
    (h : Option Nat) (hres : resolveEmb s req = (Except.ok h, s')) (nm0 : String) :
    (lookupKey s'.models nm0).map (fun e => (e.llm_config, e.llm_inst)) =
      (lookupKey s.models nm0).map (fun e => (e.llm_config, e.llm_inst)) := by
  rcases resolveEmb_ok_cases s s' req h hres with ⟨-, -, rfl⟩ | ⟨nm, e, -, hlook, hcase⟩
  · rfl
  · rcases hcase with ⟨hv, -, -, rfl⟩ | ⟨-, -, -, hmod, -, -⟩
    · rfl
    · rw [hmod]
      by_cases hnm : nm0 = nm
      · subst hnm
        rw [lookupKey_updateKey_self]
        cases lookupKey s.models nm0 <;> rfl
      · rw [lookupKey_updateKey_other _ _ _ _ hnm]

theorem resolveLlm_other (s s' : ManagerState) (req : ModelRequest)
    (r : Except PyError (Option Nat)) (nm0 : String)
    (hres : resolveLlm s req = (r, s')) (hnot : req.llm ≠ some nm0) :
    lookupKey s'.models nm0 = lookupKey s.models nm0 := by
  cases r with
  | error err =>
    rw [resolveLlm_error_state s s' req err hres]
  | ok h =>
    rcases resolveLlm_ok_cases s s' req h hres with ⟨-, -, rfl⟩ | ⟨nm, e, hreq, hlook, hcase⟩
    · rfl
    · rcases hcase with ⟨hv, -, -, rfl⟩ | ⟨-, -, -, hmod, -, -⟩
      · rfl
      · rw [hmod]
        refine lookupKey_updateKey_other _ _ _ _ fun hnm => ?_
        rw [hnm] at hnot
        exact hnot hreq

theorem resolveEmb_other (s s' : ManagerState) (req : ModelRequest)
    (r : Except PyError (Option Nat)) (nm0 : String)
    (hres : resolveEmb s req = (r, s')) (hnot : req.embeddings ≠ some nm0) :
    lookupKey s'.models nm0 = lookupKey s.models nm0 := by
  cases r with
  | error err =>
    rw [resolveEmb_error_state s s' req err hres]
  | ok h =>
    rcases resolveEmb_ok_cases s s' req h hres with ⟨-, -, rfl⟩ | ⟨nm, e, hreq, hlook, hcase⟩
    · rfl
    · rcases hcase with ⟨hv, -, -, rfl⟩ | ⟨-, -, -, hmod, -, -⟩
      · rfl
      · rw [hmod]
        refine lookupKey_updateKey_other _ _ _ _ fun hnm => ?_
        rw [hnm] at hnot
        exact hnot hreq

/-! Equations and structure of `ModelManager.get_model`. -/

theorem get_model_eq_llm_error (s s1 : ManagerState) (req : ModelRequest) (err : PyError)
    (h1 : resolveLlm s req = (Except.error err, s1)) :
    ModelManager.get_model s req = (Except.error err, s1) := by
  simp [ModelManager.get_model, h1]

theorem get_model_eq_emb_error (s s1 s2 : ManagerState) (req : ModelRequest)
    (llmh : Option Nat) (err : PyError)
    (h1 : resolveLlm s req = (Except.ok llmh, s1))
    (h2 : resolveEmb s1 req = (Except.error err, s2)) :
    ModelManager.get_model s req = (Except.error err, s2) := by
  simp [ModelManager.get_model, h1, h2]

theorem get_model_eq_ok (s s1 s2 : ManagerState) (req : ModelRequest)
    (llmh embh : Option Nat)
    (h1 : resolveLlm s req = (Except.ok llmh, s1))
    (h2 : resolveEmb s1 req = (Except.ok embh, s2)) :
    ModelManager.get_model s req =
      (Except.ok { llm := llmh, embeddings := embh }, s2) := by
  simp [ModelManager.get_model, h1, h2]

theorem get_model_ok_split (s s2 : ManagerState) (req : ModelRequest) (m : Model)
    (hres : ModelManager.get_model s req = (Except.ok m, s2)) :
    ∃ s1, resolveLlm s req = (Except.ok m.llm, s1) ∧
      resolveEmb s1 req = (Except.ok m.embeddings, s2) := by
  rcases h1 : resolveLlm s req with ⟨r1, s1'⟩
  cases r1 with
  | error err =>
    rw [get_model_eq_llm_error s s1' req err h1] at hres
    simp at hres
  | ok llmh =>
    rcases h2 : resolveEmb s1' req with ⟨r2, s2'⟩
    cases r2 with
    | error err =>
      rw [get_model_eq_emb_error s s1' s2' req llmh err h1 h2] at hres
      simp at hres
    | ok embh =>
      rw [get_model_eq_ok s s1' s2' req llmh embh h1 h2] at hres
      simp only [Prod.mk.injEq, Except.ok.injEq] at hres
      obtain ⟨hm, hs⟩ := hres
      subst hs
      subst hm
      exact ⟨s1', rfl, h2⟩

theorem get_model_idem (s s2 : ManagerState) (req : ModelRequest) (m : Model)
    (hres : ModelManager.get_model s req = (Except.ok m, s2)) :
    ModelManager.get_model s2 req = (Except.ok m, s2) := by
  obtain ⟨s1, h1, h2⟩ := get_model_ok_split s s2 req m hres
  have hL : resolveLlm s2 req = (Except.ok m.llm, s2) := by
    rcases hreq : req.llm with _ | nm
    · rw [resolveLlm_req_none s req hreq] at h1
      simp only [Prod.mk.injEq, Except.ok.injEq] at h1
      rw [← h1.1]
      exact resolveLlm_req_none s2 req hreq
    · obtain ⟨hv, e1, hmv, hlook1, hinst1⟩ :=
        resolveLlm_ok_post s s1 req m.llm nm h1 hreq
      have hpres := resolveEmb_preserves_llm s1 s2 req m.embeddings h2 nm
      rcases hlook2 : lookupKey s2.models nm with _ | e2
      · rw [hlook2, hlook1] at hpres
        simp at hpres
      · rw [hlook2, hlook1] at hpres
        simp at hpres
        rw [hmv]
        exact resolveLlm_cached s2 req nm e2 hv hreq hlook2 (by rw [hpres.2, hinst1])
  have hE : resolveEmb s2 req = (Except.ok m.embeddings, s2) := by
    rcases hreq : req.embeddings with _ | nm
    · rw [resolveEmb_req_none s1 req hreq] at h2
      simp only [Prod.mk.injEq, Except.ok.injEq] at h2
      rw [← h2.1]
      exact resolveEmb_req_none s2 req hreq
    · obtain ⟨hv, e2, hmv, hlook2, hinst2⟩ :=
        resolveEmb_ok_post s1 s2 req m.embeddings nm h2 hreq
      rw [hmv]
      exact resolveEmb_cached s2 req nm e2 hv hreq hlook2 hinst2
  cases m
  exact get_model_eq_ok s2 s2 s2 req _ _ hL hE

theorem resolveN_stable (n : Nat) (s2 : ManagerState) (req : ModelRequest)
    (m : Model) (hn : 1 ≤ n)
    (hidem : ModelManager.get_model s2 req = (Except.ok m, s2)) :
    resolveN n s2 req = (Except.ok m, s2) := by
  induction n with
  | zero => cases hn
  | succ k ih =>
    cases k with
    | zero => exact hidem
    | succ k' =>
      show resolveN (k' + 1) (ModelManager.get_model s2 req).2 req = _
      rw [hidem]
      exact ih (Nat.succ_le_succ (Nat.zero_le _))

/-! Registry construction lemmas. -/

theorem buildEntries_fresh (llms : List LlmConfig) (acc ms : List (String × BackendEntry))
    (hok : buildEntries llms acc = Except.ok ms)
    (hacc : ∀ nm e, lookupKey acc nm = some e →
      e.llm_inst = none ∧ e.embeddings_inst = none) :
    ∀ nm e, lookupKey ms nm = some e → e.llm_inst = none ∧ e.embeddings_inst = none := by
  induction llms generalizing acc with
  | nil =>
    simp only [buildEntries, Except.ok.injEq] at hok
    subst hok
    exact hacc
  | cons llm rest ih =>
    simp only [buildEntries] at hok
    rcases hn : llm.name with _ | nm'
    · simp only [hn] at hok
      cases hok
    · simp only [hn] at hok
      by_cases hdup : (lookupKey acc nm').isSome
      · rw [if_pos hdup] at hok
        cases hok
      · rw [if_neg hdup] at hok
        refine ih _ hok ?_
        intro nm e he
        rw [lookupKey_append] at he
        rcases ha : lookupKey acc nm with _ | e0
        · rw [ha] at he
          simp only [Option.elim] at he
          simp only [lookupKey] at he
          by_cases hm : nm' = nm
          · rw [if_pos hm] at he
            cases he
            exact ⟨rfl, rfl⟩
          · rw [if_neg hm] at he
            cases he
        · rw [ha] at he
          simp only [Option.elim, Option.some.injEq] at he
          subst he
          exact hacc nm e0 ha

theorem new_fresh (cfg : ManagerConfig) (s0 : ManagerState)
    (h : ModelManager.new none cfg = Except.ok s0) :
    s0.buildLog = [] ∧
      ∀ nm e, lookupKey s0.models nm = some e →
        e.llm_inst = none ∧ e.embeddings_inst = none := by
  simp only [ModelManager.new] at h
  rcases hc : cfg.llms with _ | llms
  · simp only [hc] at h
    cases h
  · simp only [hc] at h
    rcases hb : buildEntries llms [] with err | ms
    · simp only [hb, Except.map] at h
      cases h
    · simp only [hb, Except.map, Except.ok.injEq] at h
      subst h
      refine ⟨rfl, ?_⟩
      exact buildEntries_fresh llms [] ms hb fun nm e he => by cases he

theorem buildEntries_ok_iff (llms : List LlmConfig) (acc : List (String × BackendEntry)) :
    (buildEntries llms acc).isOk = true ↔
      (∀ l ∈ llms, l.name ≠ none) ∧ (llms.filterMap LlmConfig.name).Nodup ∧
        ∀ nm ∈ llms.filterMap LlmConfig.name, nm ∉ acc.map Prod.fst := by
  induction llms generalizing acc with
  | nil => simp [buildEntries, Except.isOk, Except.toBool]
  | cons llm rest ih =>
    rcases hn : llm.name with _ | nm'
    · simp only [buildEntries, hn]
      constructor
      · intro h
        simp [Except.isOk, Except.toBool] at h
      · rintro ⟨hall, -, -⟩
        exact absurd hn (hall llm (List.mem_cons_self llm rest))
    · simp only [buildEntries, hn]
      by_cases hdup : (lookupKey acc nm').isSome
      · rw [if_pos hdup]
        constructor
        · intro h
          simp [Except.isOk, Except.toBool] at h
        · rintro ⟨-, -, hC⟩
          have hmem : nm' ∈ (llm :: rest).filterMap LlmConfig.name := by
            simp [List.filterMap_cons, hn]
          exact (hC nm' hmem ((lookupKey_isSome_iff_mem acc nm').mp hdup)).elim
      · rw [if_neg hdup]
        rw [ih]
        have hnmacc : nm' ∉ acc.map Prod.fst :=
          fun hm => hdup ((lookupKey_isSome_iff_mem acc nm').mpr hm)
        simp only [List.filterMap_cons, hn, List.map_append, List.map_cons, List.map_nil]
        constructor
        · rintro ⟨hA, hB, hC⟩
          refine ⟨?_, ?_, ?_⟩
          · intro l hl
            rcases List.mem_cons.mp hl with rfl | hl'
            · rw [hn]
              exact fun hh => by cases hh
            · exact hA l hl'
          · rw [List.nodup_cons]
            refine ⟨?_, hB⟩
            intro hmem
            exact hC nm' hmem (List.mem_append.mpr (Or.inr (List.mem_singleton.mpr rfl)))
          · intro nm hm
            rcases List.mem_cons.mp hm with rfl | hm'
            · exact hnmacc
            · intro hin
              exact hC nm hm' (List.mem_append.mpr (Or.inl hin))
        · rintro ⟨hA, hB, hC⟩
          have hB' := List.nodup_cons.mp hB
          refine ⟨fun l hl => hA l (List.mem_cons.mpr (Or.inr hl)), hB'.2, ?_⟩
          intro nm hm hin
          rcases List.mem_append.mp hin with hin' | hin'
          · exact hC nm (List.mem_cons.mpr (Or.inr hm)) hin'
          · rw [List.mem_singleton] at hin'
            subst hin'
            exact hB'.1 hm

/-! Claim theorems. -/

/-- C10: the registry is a process-wide singleton. Once `__instance` is
set, `ModelManager.__new__` returns it unchanged for every subsequently
supplied config — including a config with an absent, name-less or
duplicate-name descriptor list — performing no validation and leaving the
registered entries untouched. -/
theorem singleton_skips_validation (s : ManagerState) (cfg : ManagerConfig) :
    ModelManager.new (some s) cfg = Except.ok s := rfl

/-- C3: first-time registry construction succeeds exactly when the
descriptor list is present, every descriptor carries a name, and the
names are pairwise distinct; in every other case it fails with the
ValueError that plays the spec's ConfigurationError. -/
theorem registry_build_validation (cfg : ManagerConfig) :
    (ModelManager.new none cfg).isOk = true ↔
      ∃ llms, cfg.llms = some llms ∧ (∀ l ∈ llms, l.name ≠ none) ∧
        (llms.filterMap LlmConfig.name).Nodup := by
  simp only [ModelManager.new]
  rcases hc : cfg.llms with _ | llms
  · constructor
    · intro h
      simp [Except.isOk, Except.toBool] at h
    · rintro ⟨llms, hll, -⟩
      cases hll
  · have hmap : (Except.map
        (fun ms => ({ models := ms, nextHandle := 0, buildLog := [] } : ManagerState))
        (buildEntries llms [])).isOk = (buildEntries llms []).isOk := by
      cases buildEntries llms [] <;> rfl
    rw [hmap, buildEntries_ok_iff]
    constructor
    · rintro ⟨hA, hB, -⟩
      exact ⟨llms, rfl, hA, hB⟩
    · rintro ⟨llms', hll, hA, hB⟩
      obtain ⟨rfl⟩ := hll
      refine ⟨hA, hB, ?_⟩
      intro nm hm
      simp

/-- Witness for C3: a concrete two-backend config with distinct names
builds successfully. -/
theorem registry_build_validation_witness :
    (ModelManager.new none { llms := some [llmA, llmB] }).isOk = true :=
  (registry_build_validation _).mpr ⟨_, rfl, by decide, by decide⟩

/-- C8: registry construction never builds a model handle — right after a
successful build every entry's two handle slots are `None` — and a
resolve call leaves the entry of every backend it does not name
untouched, so the slots stay `None` until the first resolve naming that
entry. -/
theorem construction_lazy (cfg : ManagerConfig) (s0 : ManagerState)
    (hbuild : ModelManager.new none cfg = Except.ok s0) :
    (∀ nm e, lookupKey s0.models nm = some e →
        e.llm_inst = none ∧ e.embeddings_inst = none) ∧
      ∀ s req nm, req.llm ≠ some nm → req.embeddings ≠ some nm →
        lookupKey (ModelManager.get_model s req).2.models nm = lookupKey s.models nm := by
  refine ⟨(new_fresh cfg s0 hbuild).2, ?_⟩
  intro s req nm h1 h2
  rcases hL : resolveLlm s req with ⟨r1, s1⟩
  cases r1 with
  | error err =>
    rw [get_model_eq_llm_error s s1 req err hL]
    exact resolveLlm_other s s1 req _ nm hL h1
  | ok llmh =>
    rcases hE : resolveEmb s1 req with ⟨r2, s2⟩
    cases r2 with
    | error err =>
      rw [get_model_eq_emb_error s s1 s2 req llmh err hL hE]
      rw [show ((Except.error err : Except PyError Model), s2).2 = s2 from rfl]
      rw [resolveEmb_other s1 s2 req _ nm hE h2]
      exact resolveLlm_other s s1 req _ nm hL h1
    | ok embh =>
      rw [get_model_eq_ok s s1 s2 req llmh embh hL hE]
      rw [show ((Except.ok { llm := llmh, embeddings := embh } : Except PyError Model),
        s2).2 = s2 from rfl]
      rw [resolveEmb_other s1 s2 req _ nm hE h2]
      exact resolveLlm_other s s1 req _ nm hL h1

/-- Witness for C8 on the concrete one-backend registry: both handle
slots of `a` are empty after build, and a resolve naming no backend
leaves the entry untouched. -/
theorem construction_lazy_witness :
    entA.llm_inst = none ∧ entA.embeddings_inst = none ∧
      lookupKey (ModelManager.get_model stW0 { llm := none, embeddings := none }).2.models
        "a" = lookupKey stW0.models "a" := by
  obtain ⟨h1, h2⟩ := construction_lazy cfgW stW0 rfl
  obtain ⟨ha, hb⟩ := h1 "a" entA rfl
  exact ⟨ha, hb, h2 stW0 { llm := none, embeddings := none } "a"
    (fun h => nomatch h) (fun h => nomatch h)⟩

/-- C2 counterexample: from the freshly built one-backend registry, the
request naming the registered backend `a` as llm and the unregistered
name `b` as embeddings fails with the configuration error — but the
failing call has constructed and cached the llm handle of `a` (its
`LLM_INST` slot went from `None` to handle 0), refuting the claim that
no partial construction occurs when the request also names a second,
registered backend. -/
theorem resolve_partial_construction_cex :
    ModelManager.new none cfgW = Except.ok stW0 ∧
      lookupKey stW0.models "a" =
        some { llm_config := llmA, llm_inst := none, embeddings_inst := none } ∧
      (ModelManager.get_model stW0 rqPartial).1 =
        Except.error (PyError.valueError "The llms does not contain a llm named b") ∧
      lookupKey (ModelManager.get_model stW0 rqPartial).2.models "a" =
        some { llm_config := llmA, llm_inst := some 0, embeddings_inst := none } := by
  refine ⟨rfl, rfl, rfl, rfl⟩

/-- C2 (amended): a resolve request naming an unregistered backend fails
with the configuration error. If the unregistered name is the llm name,
the llm branch runs first, so the call fails with the state untouched —
no handle is constructed or cached. If the unregistered name is the
embeddings name, the call still fails, but it returns the state produced
by the already-finished llm branch, which may have constructed and cached
a handle for a registered llm named in the same request. -/
theorem resolve_unregistered_fails (s : ManagerState) (req : ModelRequest) (nm : String) :
    (req.llm = some nm → lookupKey s.models nm = none →
      ModelManager.get_model s req =
        (Except.error (PyError.valueError
          ("The llms does not contain a llm named " ++ nm)), s)) ∧
      ∀ s1 h, req.embeddings = some nm → resolveLlm s req = (Except.ok h, s1) →
        lookupKey s1.models nm = none →
        ModelManager.get_model s req =
          (Except.error (PyError.valueError
            ("The llms does not contain a llm named " ++ nm)), s1) := by
  constructor
  · intro hreq hlook
    exact get_model_eq_llm_error s s req _
      (resolveLlm_unregistered s req nm hreq hlook)
  · intro s1 h hreq hL hlook
    exact get_model_eq_emb_error s s1 s1 req h _ hL
      (resolveEmb_unregistered s1 req nm hreq hlook)

/-- Witness for C2 (amended), llm side: resolving the unregistered name
`b` on the fresh one-backend registry fails and returns the state
unchanged. -/
theorem resolve_unregistered_fails_witness :
    ModelManager.get_model stW0 { llm := some "b", embeddings := none } =
      (Except.error (PyError.valueError
        ("The llms does not contain a llm named " ++ "b")), stW0) :=
  (resolve_unregistered_fails stW0 { llm := some "b", embeddings := none } "b").1 rfl rfl

/-- C4 (code bug in the legacy file): the legacy remote-api factory
`OpenAIFactory.__init__` in lib/model_manager.py accepts a present-but-
empty model identifier as long as the api key is set — it validates only
`self.api_key` — while the three sibling variants in the same file and
both restructured factories reject the identical empty model identifier
at construction time with `Missing model in llm config`. -/
theorem openai_factory_skips_model_check :
    OpenAIFactory.init cfgEmptyModel = Except.ok ("", "sk-test") ∧
      HuggingFaceFactory.init cfgEmptyModelNoKey =
        Except.error (PyError.valueError "Missing model in llm config") ∧
      LlamaCppFactory.init cfgEmptyModelNoKey =
        Except.error (PyError.valueError "Missing model in llm config") ∧
      OllamaFactory.init cfgEmptyModelNoKey =
        Except.error (PyError.valueError "Missing model in llm config") ∧
      support_ai.OpenAIFactory.init cfgEmptyModel =
        Except.error (PyError.valueError "Missing model in llm config") ∧
      support_ai.LlamaCppFactory.init cfgEmptyModelNoKey =
        Except.error (PyError.valueError "Missing model in llm config") :=
  ⟨rfl, rfl, rfl, rfl, rfl, rfl⟩

/-- C1: from a freshly built registry, once a first resolution of a
request succeeds, resolving the same request any number `n ≥ 1` of times
in sequence yields the very same handle bundle and final state — so the
second and every later resolution returns the identical cached handles —
and the constructor log of the final state records exactly one
language-model construction for the requested llm name and exactly one
embeddings construction for the requested embeddings name. -/
theorem resolve_constructs_once (cfg : ManagerConfig) (s0 s1 : ManagerState)
    (req : ModelRequest) (m : Model) (n : Nat)
    (hbuild : ModelManager.new none cfg = Except.ok s0)
    (hfirst : ModelManager.get_model s0 req = (Except.ok m, s1))
    (hn : 1 ≤ n) :
    resolveN n s0 req = (Except.ok m, s1) ∧
      (∀ nm, req.llm = some nm → llmBuildCount s1 nm = 1) ∧
      ∀ nm, req.embeddings = some nm → embBuildCount s1 nm = 1 := by
  obtain ⟨hlog0, hfresh⟩ := new_fresh cfg s0 hbuild
  obtain ⟨sMid, hL, hE⟩ := get_model_ok_split s0 s1 req m hfirst
  have hmidlog : (req.llm = none ∧ sMid = s0) ∨
      ∃ nm, req.llm = some nm ∧ sMid.buildLog = s0.buildLog ++ [(nm, false)] := by
    rcases resolveLlm_ok_cases s0 sMid req m.llm hL with
      ⟨hnone, -, rfl⟩ | ⟨nm, e, hreq, hlook, hcase⟩
    · exact Or.inl ⟨hnone, rfl⟩
    · rcases hcase with ⟨hv, hinst, -, rfl⟩ | ⟨-, -, -, -, -, hlog⟩
      · cases (hfresh nm e hlook).1.symm.trans hinst
      · exact Or.inr ⟨nm, hreq, hlog⟩
  have hendlog : (req.embeddings = none ∧ s1 = sMid) ∨
      ∃ nm, req.embeddings = some nm ∧ s1.buildLog = sMid.buildLog ++ [(nm, true)] := by
    rcases resolveEmb_ok_cases sMid s1 req m.embeddings hE with
      ⟨hnone, -, rfl⟩ | ⟨nm, e, hreq, hlook, hcase⟩
    · exact Or.inl ⟨hnone, rfl⟩
    · rcases hcase with ⟨hv, hinst, -, rfl⟩ | ⟨-, -, -, -, -, hlog⟩
      · have hpres := resolveLlm_preserves_emb s0 _ req m.llm hL nm
        rcases hlook0 : lookupKey s0.models nm with _ | e0
        · rw [hlook, hlook0] at hpres
          simp at hpres
        · rw [hlook, hlook0] at hpres
          simp at hpres
          cases (hpres.2.trans (hfresh nm e0 hlook0).2).symm.trans hinst
      · exact Or.inr ⟨nm, hreq, hlog⟩
  refine ⟨?_, ?_, ?_⟩
  · cases n with
    | zero => cases hn
    | succ k =>
      cases k with
      | zero => exact hfirst
      | succ k' =>
        show resolveN (k' + 1) (ModelManager.get_model s0 req).2 req = _
        rw [hfirst]
        exact resolveN_stable (k' + 1) s1 req m (Nat.succ_le_succ (Nat.zero_le _))
          (get_model_idem s0 s1 req m hfirst)
  · intro nm hreq
    have hmid : sMid.buildLog = [(nm, false)] := by
      rcases hmidlog with ⟨hnone, -⟩ | ⟨nm', hreq', hlog⟩
      · rw [hreq] at hnone
        cases hnone
      · rw [hreq] at hreq'
        obtain ⟨rfl⟩ := hreq'
        rw [hlog, hlog0]
        rfl
    unfold llmBuildCount
    rcases hendlog with ⟨-, rfl⟩ | ⟨nm', -, hlog⟩
    · rw [hmid]
      simp [logCount]
    · rw [hlog, logCount_append_miss _ _ _ _ _ (by simp), hmid]
      simp [logCount]
  · intro nm hreq
    have hend : s1.buildLog = sMid.buildLog ++ [(nm, true)] := by
      rcases hendlog with ⟨hnone, -⟩ | ⟨nm', hreq', hlog⟩
      · rw [hreq] at hnone
        cases hnone
      · rw [hreq] at hreq'
        obtain ⟨rfl⟩ := hreq'
        exact hlog
    unfold embBuildCount
    rw [hend, logCount_append_hit]
    rcases hmidlog with ⟨-, rfl⟩ | ⟨nm', -, hlog⟩
    · rw [hlog0]
      rfl
    · rw [hlog, hlog0, logCount_append_miss _ _ _ _ _ (by simp)]
      rfl

/-- Branch equation of `Memory.__get_session_memory` when the session is
cached. -/
theorem get_session_memory_cached (s : MemoryState) (session : String)
    (mem : SessionMemoryObj) (h : lookupKey s.session_memories session = some mem) :
    Memory.get_session_memory s session = (mem, s) := by
  simp [Memory.get_session_memory, h]

/-- Branch equation of `Memory.__get_session_memory` when the session is
absent: a fresh object is constructed (one Mongo constructor call) and
cached. -/
theorem get_session_memory_fresh (s : MemoryState) (session : String)
    (h : lookupKey s.session_memories session = none) :
    Memory.get_session_memory s session =
      ({ objId := s.nextObjId, session := session },
        { s with
            session_memories :=
              s.session_memories ++ [(session, { objId := s.nextObjId, session := session })],
            nextObjId := s.nextObjId + 1,
            mongoCtorCount := s.mongoCtorCount + 1 }) := by
  simp [Memory.get_session_memory, h]

/-- C5: with session `session` not yet cached, `__get_session_memory`
called twice returns the same underlying memory object both times, the
second call changes nothing, and the `MongoDBChatMessageHistory`
constructor runs exactly once across the two calls. -/
theorem get_or_create_memory_idempotent (s : MemoryState) (session : String)
    (habs : lookupKey s.session_memories session = none) :
    (Memory.get_session_memory (Memory.get_session_memory s session).2 session).1 =
        (Memory.get_session_memory s session).1 ∧
      (Memory.get_session_memory (Memory.get_session_memory s session).2 session).2 =
        (Memory.get_session_memory s session).2 ∧
      (Memory.get_session_memory s session).2.mongoCtorCount = s.mongoCtorCount + 1 := by
  have hlk2 : lookupKey
      (s.session_memories ++ [(session, { objId := s.nextObjId, session := session })])
      session = some { objId := s.nextObjId, session := session } := by
    rw [lookupKey_append, habs]
    simp [lookupKey]
  simp only [get_session_memory_fresh s session habs]
  rw [get_session_memory_cached _ session _ hlk2]
  refine ⟨?_, ?_, ?_⟩ <;> trivial

/-- Witness for C5 on the freshly initialised manager. -/
theorem get_or_create_memory_idempotent_witness :
    (Memory.get_session_memory (Memory.get_session_memory memW0 "s1").2 "s1").1 =
        (Memory.get_session_memory memW0 "s1").1 ∧
      (Memory.get_session_memory memW0 "s1").2.mongoCtorCount = 1 := by
  obtain ⟨h1, -, h3⟩ := get_or_create_memory_idempotent memW0 "s1" rfl
  exact ⟨h1, h3⟩

/-- C6: `integrate` returns exactly the string the language model
produces on the conversation `[fixed system role, loaded history, new
human turn embedding context and query]`, and appends exactly one new
turn — the pair of the original query and that returned string — to the
session's persisted history, leaving every other session's history
untouched. -/
theorem integrate_appends_one_turn (llm : List ChatMsg → String) (s : MemoryState)
    (session query context : String) (hwf : MemoryWF s) :
    (Memory.integrate llm s session query context).1 =
      llm (ChatMsg.system "You are a helpful chatbot" ::
        loadHistory (persistedOf s session) ++
        [ChatMsg.human ("Based on the context: " ++ context ++ ", " ++ query)]) ∧
      persistedOf (Memory.integrate llm s session query context).2 session =
        persistedOf s session ++
          [(query, (Memory.integrate llm s session query context).1)] ∧
      ∀ other, other ≠ session →
        persistedOf (Memory.integrate llm s session query context).2 other =
          persistedOf s other := by
  cases hlk : lookupKey s.session_memories session with
  | some mem =>
    have hsess := hwf session mem hlk
    simp only [Memory.integrate, get_session_memory_cached s session mem hlk, hsess]
    refine ⟨by trivial, ?_, ?_⟩
    · simp only [persistedOf, lookupKey_setKey_self]
      rfl
    · intro other hne
      simp only [persistedOf, lookupKey_setKey_other _ _ _ _ hne]
  | none =>
    simp only [Memory.integrate, get_session_memory_fresh s session hlk]
    refine ⟨rfl, ?_, ?_⟩
    · simp only [persistedOf, lookupKey_setKey_self]
      rfl
    · intro other hne
      simp only [persistedOf, lookupKey_setKey_other _ _ _ _ hne]

/-- Witness for C6: one end-to-end `integrate` call on the fresh manager
with a constant language model. -/
theorem integrate_appends_one_turn_witness :
    (Memory.integrate (fun _ => "integrated") memW0 "s1" "What is X?"
        "X is defined as ...").1 = "integrated" ∧
      persistedOf (Memory.integrate (fun _ => "integrated") memW0 "s1" "What is X?"
        "X is defined as ...").2 "s1" = [("What is X?", "integrated")] := by
  obtain ⟨h1, h2, -⟩ :=
    integrate_appends_one_turn (fun _ => "integrated") memW0 "s1" "What is X?"
      "X is defined as ..." (fun _ _ h => nomatch h)
  refine ⟨h1, ?_⟩
  rw [h2, h1]
  rfl

/-- C7: `clear` empties the session's persisted history and drops the
cached in-process object; it is total (clearing an unknown session is not
an error), its observable effect is idempotent, it leaves every other
session untouched, and a subsequent `__get_session_memory` sees an empty
history — first-ever use. -/
theorem clear_idempotent_reset (s : MemoryState) (session : String) :
    persistedOf (Memory.clear s session) session = [] ∧
      lookupKey (Memory.clear s session).session_memories session = none ∧
      (∀ other, other ≠ session →
        persistedOf (Memory.clear s session) other = persistedOf s other ∧
          lookupKey (Memory.clear s session).session_memories other =
            lookupKey s.session_memories other) ∧
      (Memory.clear (Memory.clear s session) session).persisted =
        (Memory.clear s session).persisted ∧
      (Memory.clear (Memory.clear s session) session).session_memories =
        (Memory.clear s session).session_memories ∧
      persistedOf (Memory.get_session_memory (Memory.clear s session) session).2
        session = [] := by
  refine ⟨?_, ?_, ?_, ?_, ?_, ?_⟩
  · simp [persistedOf, Memory.clear, lookupKey_removeKey_self]
  · simp [Memory.clear, lookupKey_removeKey_self]
  · intro other hne
    constructor
    · simp [persistedOf, Memory.clear, lookupKey_removeKey_other _ _ _ hne]
    · simp [Memory.clear, lookupKey_removeKey_other _ _ _ hne]
  · simp [Memory.clear, removeKey_idem]
  · simp [Memory.clear, removeKey_idem]
  · have h : lookupKey (Memory.clear s session).session_memories session = none := by
      simp [Memory.clear, lookupKey_removeKey_self]
    rw [get_session_memory_fresh _ session h]
    simp [persistedOf, Memory.clear, lookupKey_removeKey_self]

/-- Witness for C1: three sequential resolutions of both handles of
backend `a` on the concrete one-backend registry return the same bundle
and record exactly one construction of each kind. -/
theorem resolve_constructs_once_witness :
    resolveN 3 stW0 rqW = (Except.ok mW, stW1) ∧
      llmBuildCount stW1 "a" = 1 ∧ embBuildCount stW1 "a" = 1 := by
  obtain ⟨h1, h2, h3⟩ :=
    resolve_constructs_once cfgW stW0 stW1 rqW mW 3 rfl rfl (by decide)
  exact ⟨h1, h2 "a" rfl, h3 "a" rfl⟩

/-- Witness for C7 on the one-session manager: clearing `s1` empties its
history, drops the cached object, and a following get sees an empty
history. -/
theorem clear_idempotent_reset_witness :
    persistedOf (Memory.clear memW1 "s1") "s1" = [] ∧
      lookupKey (Memory.clear memW1 "s1").session_memories "s1" = none ∧
      persistedOf (Memory.get_session_memory (Memory.clear memW1 "s1") "s1").2
        "s1" = [] := by
  obtain ⟨h1, h2, -, -, -, h6⟩ := clear_idempotent_reset memW1 "s1"
  exact ⟨h1, h2, h6⟩

/-- C9: `get_or_compute` returns the stored value without invoking
`compute` whenever the entry for the key is live (`now - created_at <
ttl`), and never returns an expired entry: on an expired entry it invokes
`compute` again, returns the fresh value, and the fresh entry (stamped
`now`) replaces the old one in the map. -/
theorem cache_live_hit_and_expiry {α : Type} (c : TimeBoundedCache α) (key : String)
    (compute : Unit → α) (now : Nat) (e : CacheEntry α)
    (hlook : lookupKey c.entries key = some e) :
    (now - e.created_at < c.ttl →
      TimeBoundedCache.get_or_compute c key compute now = (e.value, c, false)) ∧
      (¬now - e.created_at < c.ttl →
        (TimeBoundedCache.get_or_compute c key compute now).1 = compute () ∧
          (TimeBoundedCache.get_or_compute c key compute now).2.2 = true ∧
          lookupKey (TimeBoundedCache.get_or_compute c key compute now).2.1.entries
            key = some { value := compute (), created_at := now }) := by
  constructor
  · intro hlive
    simp [TimeBoundedCache.get_or_compute, hlook, hlive]
  · intro hexp
    simp only [TimeBoundedCache.get_or_compute, hlook, if_neg hexp]
    refine ⟨by trivial, by trivial, ?_⟩
    rw [lookupKey_append, lookupKey_removeKey_self]
    simp [lookupKey]

/-- Witness for C9 on the concrete cache: a query at time 0 hits the
live entry without computing; a query at time 1 recomputes and replaces
it. -/
theorem cache_live_hit_and_expiry_witness :
    TimeBoundedCache.get_or_compute cacheW "k" (fun _ => "w") 0 =
        ("v", cacheW, false) ∧
      (TimeBoundedCache.get_or_compute cacheW "k" (fun _ => "w") 1).1 = "w" ∧
      lookupKey (TimeBoundedCache.get_or_compute cacheW "k" (fun _ => "w") 1).2.1.entries
        "k" = some { value := "w", created_at := 1 } := by
  obtain ⟨hlive, -⟩ :=
    cache_live_hit_and_expiry cacheW "k" (fun _ => "w") 0 { value := "v", created_at := 0 } rfl
  obtain ⟨-, hexp⟩ :=
    cache_live_hit_and_expiry cacheW "k" (fun _ => "w") 1 { value := "v", created_at := 0 } rfl
  obtain ⟨h1, -, h3⟩ := hexp (by decide)
  exact ⟨hlive (by decide), h1, h3⟩

end SupportAI
